import Mathlib

/-!
Shallow embedding of the configuration-discovery and query-routing core of
the mcp-wordpress VS Code extension.

Sources embedded:
* `findWordPressConfig` (utils/wp-config-finder): upward directory walk.
* `extractConfigValue` / `parseWordPressConfig` (utils/wp-config-parser):
  regex extraction of wp-config.php settings.
* `WordPressManager.connectToDatabase` / `disconnect`: connection state.
* `WordPressManager.getActivePlugins` / `getCustomPostTypes`: option-row
  readers over an abstract database.
* the intent classifier of `wordpressRequestHandler` (mcp-provider).
* `executeNaturalLanguageQuery` (extension.ts): the ad-hoc NL-to-SQL
  translator, including a faithful model of the JavaScript regex
  `like\s+(['"]?)%?([^%'"]+)%?(['"]?)` with its backtracking.

Strings are modelled as `String` / `List Char`; the filesystem and the
database driver are oracles passed in as functions; JavaScript regexes are
modelled by hand-rolled matchers that follow the leftmost-match,
greedy-with-backtracking semantics of the specific patterns the source
uses (all inputs of interest are ASCII, so `Char.toLower` models
`String.prototype.toLowerCase` / the `i` flag).
-/

namespace McpWordpress

/-- JavaScript regex whitespace class `\s`, restricted to ASCII. -/
def isJsSpace (c : Char) : Bool :=
  c == ' ' || c == '\t' || c == '\n' || c == '\r' || c == '\x0b' || c == '\x0c'

/-- Lower-case a string character by character (JS `toLowerCase` on ASCII). -/
def lcString (s : String) : String :=
  String.mk (s.data.map Char.toLower)

/-- JS `String.prototype.includes`: does `hay` contain `needle` as a substring? -/
def containsSub (needle hay : String) : Bool :=
  hay.data.tails.any (fun t => needle.data.isPrefixOf t)

/-! ## ConfigLocator: utils/wp-config-finder.ts, findWordPressConfig

A directory is a list of path components, deepest first, so `[]` is the
filesystem root and `List.drop` moves toward the root (`path.dirname`).
`hasCfg dir` is the oracle for `fs.exists(path.join(dir, 'wp-config.php'))`.
The returned `Nat` counts the existence checks performed.  The source loop
runs `while (currentPath !== rootPath)`, checks for the marker file, then
moves up (the `parentPath === currentPath` guard never fires for normalized
paths, since `dirname` strips one component); so the root `[]` terminates
the walk without being examined. -/
def findWordPressConfig (hasCfg : List String → Bool) : List String → Option (List String) × Nat
  | [] => (none, 0)
  | c :: rest =>
      if hasCfg (c :: rest) then (some ("wp-config.php" :: c :: rest), 1)
      else
        let r := findWordPressConfig hasCfg rest
        (r.1, r.2 + 1)

/-! ## ConfigParser: utils/wp-config-parser.ts -/

/-- Strip `pat` from the front of `s`, comparing case-insensitively
(the JS regexes run with the `i` flag). Returns the rest on success. -/
def stripPrefixCI : List Char → List Char → Option (List Char)
  | [], s => some s
  | _ :: _, [] => none
  | p :: ps, c :: cs => if c.toLower = p.toLower then stripPrefixCI ps cs else none

/-- Strip one expected literal character. -/
def stripChar (x : Char) : List Char → Option (List Char)
  | c :: cs => if c == x then some cs else none
  | [] => none

/-- Strip one quote character, single or double (`['"]`). -/
def stripQuote : List Char → Option (List Char)
  | c :: cs => if c == '\'' || c == '"' then some cs else none
  | [] => none

/-- Skip `\s*`. -/
def skipWs (s : List Char) : List Char :=
  s.dropWhile isJsSpace

/-- Match the regex `define\s*\(\s*['"]KEY['"]\s*,\s*["']([^"']+)["']\s*\)`
(flag `i`) at the current position; return the captured value.  Every
quantified piece here is deterministic: each `\s*` is followed by a
non-space literal and `[^"']+` is followed by a quote, so greedy matching
never backtracks. -/
def matchDefineAt (key : List Char) (s : List Char) : Option (List Char) := do
  let s ← stripPrefixCI ("define".data) s
  let s ← stripChar '(' (skipWs s)
  let s ← stripQuote (skipWs s)
  let s ← stripPrefixCI key s
  let s ← stripQuote s
  let s ← stripChar ',' (skipWs s)
  let s ← stripQuote (skipWs s)
  let cap := s.takeWhile (fun c => !(c == '"' || c == '\''))
  if cap.isEmpty then none
  else do
    let s ← stripQuote (s.drop cap.length)
    let _ ← stripChar ')' (skipWs s)
    some cap

/-- First match of the `define` pattern anywhere in the content
(JS `String.prototype.match` returns the leftmost match). -/
def findDefine (key : List Char) : List Char → Option (List Char)
  | [] => none
  | c :: rest =>
      match matchDefineAt key (c :: rest) with
      | some cap => some cap
      | none => findDefine key rest

/-- Match the regex `\$table_prefix\s*=\s*['"]([^'"]+)['"]` (flag `i`) at the
current position; return the captured value. -/
def matchTablePrefixAt (s : List Char) : Option (List Char) := do
  let s ← stripChar '$' s
  let s ← stripPrefixCI ("table_prefix".data) s
  let s ← stripChar '=' (skipWs s)
  let s ← stripQuote (skipWs s)
  let cap := s.takeWhile (fun c => !(c == '\'' || c == '"'))
  if cap.isEmpty then none
  else do
    let _ ← stripQuote (s.drop cap.length)
    some cap

/-- First match of the `$table_prefix` assignment pattern in the content. -/
def findTablePrefix : List Char → Option (List Char)
  | [] => none
  | c :: rest =>
      match matchTablePrefixAt (c :: rest) with
      | some cap => some cap
      | none => findTablePrefix rest

/-- extractConfigValue: try the `define(...)` regex first for every key;
only for the key `table_prefix`, fall back to the variable-assignment regex
and then to the literal default `wp_`; other keys fall back to `""`. -/
def extractConfigValue (content key : String) : String :=
  match findDefine key.data content.data with
  | some cap => String.mk cap
  | none =>
      if key = "table_prefix" then
        match findTablePrefix content.data with
        | some cap => String.mk cap
        | none => "wp_"
      else ""

structure WordPressConfig where
  configPath : String
  dbHost : String
  dbName : String
  dbUser : String
  dbPassword : String
  tablePrefix : String
  wpPath : String
deriving DecidableEq, Repr

/-- JS `a || b` on strings: `b` when `a` is empty. -/
def orDefault (v fallback : String) : String :=
  if v = "" then fallback else v

/-- parseWordPressConfig: the file read and `path.dirname` happen outside;
this takes the file's path, its contents and its directory. -/
def parseWordPressConfig (configPath configContent configDir : String) : WordPressConfig :=
  { configPath := configPath
    dbHost := orDefault (extractConfigValue configContent "DB_HOST") "localhost"
    dbName := extractConfigValue configContent "DB_NAME"
    dbUser := extractConfigValue configContent "DB_USER"
    dbPassword := extractConfigValue configContent "DB_PASSWORD"
    tablePrefix := orDefault (extractConfigValue configContent "table_prefix") "wp_"
    wpPath := configDir }

/-! ## WordPressManager connection state

`connection` is the manager's `this.connection`; `openHandles` tracks every
driver handle created by `mysql.createConnection` and not yet closed by
`connection.end()` (handles are numbered by creation).  `findResult` stands
for the outcome of `this.findWordPressConfig()` when no config is cached,
and `driverOk` for whether `mysql.createConnection` succeeds. -/
structure ManagerState where
  config : Option WordPressConfig
  connection : Option Nat
  openHandles : List Nat
  nextHandle : Nat
deriving DecidableEq, Repr

/-- WordPressManager.connectToDatabase: loads config if absent, then (on
driver success) stores a freshly created connection in `this.connection`.
The previous value of `this.connection` is overwritten, not `end()`ed. -/
def connectToDatabase (findResult : Option WordPressConfig) (driverOk : Bool)
    (s : ManagerState) : ManagerState × Bool :=
  let s := match s.config with
    | none => { s with config := findResult }
    | some _ => s
  match s.config with
  | none => (s, false)
  | some _ =>
      if driverOk then
        ({ s with connection := some s.nextHandle
                  openHandles := s.openHandles ++ [s.nextHandle]
                  nextHandle := s.nextHandle + 1 }, true)
      else (s, false)

/-- WordPressManager.disconnect: ends and clears the current connection. -/
def disconnect (s : ManagerState) : ManagerState :=
  match s.connection with
  | some h => { s with connection := none, openHandles := s.openHandles.erase h }
  | none => s

/-- A parsed configuration for concrete runs of the connection model. -/
def sampleConfig : WordPressConfig :=
  { configPath := "/srv/wp/wp-config.php", dbHost := "localhost", dbName := "wp"
    dbUser := "root", dbPassword := "", tablePrefix := "wp_", wpPath := "/srv/wp" }

/-! ## Option-table readers: getActivePlugins, getCustomPostTypes

The database is an oracle: `optionRows name` models the rows returned by
`SELECT option_value FROM <prefix>options WHERE option_name = '<name>'`,
and `postTypes` the `post_type` column of every row of the posts table. -/
structure WordPressDatabase where
  optionRows : String → List String
  postTypes : List String

/-- JS `String.prototype.split` with a single-character separator:
every occurrence of `sep` separates two (possibly empty) segments. -/
def splitOnChar (sep : Char) : List Char → List (List Char)
  | [] => [[]]
  | c :: rest =>
      match splitOnChar sep rest with
      | r :: rs => if c == sep then [] :: r :: rs else (c :: r) :: rs
      | [] => [[]]

/-- JS `String.prototype.trim` (ASCII whitespace). -/
def trimChars (l : List Char) : List Char :=
  ((l.dropWhile isJsSpace).reverse.dropWhile isJsSpace).reverse

/-- The plugin-list split of getActivePlugins:
`option_value.split(';').filter(p => p.trim().length > 0)`. -/
def parseActivePlugins (v : String) : List String :=
  ((splitOnChar ';' v.data).map (fun l => String.mk l)).filter
    (fun p => decide (0 < (trimChars p.data).length))

/-- WordPressManager.getActivePlugins (configured, queries succeeding). -/
def getActivePlugins (db : WordPressDatabase) : List String :=
  match db.optionRows "active_plugins" with
  | v :: _ => parseActivePlugins v
  | [] => []

/-- One match of the global regex `s:(\d+):"([^"]+)"` at the current
position.  On success, returns the captured token together with the number
of input characters the match spans beyond its first one (the match spans
`s:` (2) + digits + `:"` (2) + token + `"` (1) characters, so the second
component is that total minus 1); the global scan resumes right after the
match. -/
def matchCptAt : List Char → Option (List Char × Nat)
  | 's' :: ':' :: rest =>
      let ds := rest.takeWhile Char.isDigit
      if ds.isEmpty then none
      else
        match rest.drop ds.length with
        | ':' :: '"' :: r3 =>
            let tok := r3.takeWhile (fun c => !(c == '"'))
            if tok.isEmpty then none
            else
              match r3.drop tok.length with
              | '"' :: _ => some (tok, 4 + ds.length + tok.length)
              | _ => none
        | _ => none
  | _ => none

/-- All matches of the global regex `s:(\d+):"([^"]+)"`, leftmost first,
advancing one character at a time; a positive `skip` count discards the
remaining characters of the match just emitted, so after a match the scan
resumes at the match's end, as JS global `String.prototype.match` does. -/
def cptScanAux : Nat → List Char → List (List Char)
  | _, [] => []
  | skip + 1, _ :: rest => cptScanAux skip rest
  | 0, c :: rest =>
      match matchCptAt (c :: rest) with
      | some (tok, skip) => tok :: cptScanAux skip rest
      | none => cptScanAux 0 rest

/-- All matches of the global regex `s:(\d+):"([^"]+)"` over the input. -/
def cptScan (s : List Char) : List (List Char) :=
  cptScanAux 0 s

/-- The five built-in post types excluded by the fallback query. -/
def builtinPostTypes : List String :=
  ["post", "page", "attachment", "revision", "nav_menu_item"]

/-- The fallback query `SELECT DISTINCT post_type FROM <prefix>posts WHERE
post_type NOT IN (...) LIMIT 20`: distinct kept in first-occurrence order. -/
def fallbackPostTypes (db : WordPressDatabase) : List String :=
  ((db.postTypes.filter (fun t => !builtinPostTypes.contains t)).eraseDups).take 20

/-- WordPressManager.getCustomPostTypes (configured, queries succeeding):
the cptui_post_types option row is preferred whenever it exists and its
value yields at least one token; only otherwise is the posts table used. -/
def getCustomPostTypes (db : WordPressDatabase) : List String :=
  match db.optionRows "cptui_post_types" with
  | v :: _ =>
      let toks := cptScan v.data
      if toks.isEmpty then fallbackPostTypes db
      else toks.map (fun t => String.mk t)
  | [] => fallbackPostTypes db

/-! ## QueryRouter: the intent classifier of wordpressRequestHandler -/

inductive Intent
  | database_info
  | theme_info
  | plugin_info
  | custom_post_types
  | general_info
deriving DecidableEq, Repr

/-- The if/else-if keyword cascade of wordpressRequestHandler, applied to
the lower-cased prompt. -/
def classify (prompt : String) : Intent :=
  let query := lcString prompt
  if containsSub "database" query || containsSub "db" query
      || containsSub "username" query || containsSub "wp-config" query then
    Intent.database_info
  else if containsSub "theme" query then Intent.theme_info
  else if containsSub "plugin" query then Intent.plugin_info
  else if containsSub "post type" query || containsSub "cpt" query then
    Intent.custom_post_types
  else Intent.general_info

/-- The specification's classification rules as an ordered (keywords,
intent) table, first matching rule wins, catch-all general_info. -/
def specRules : List (List String × Intent) :=
  [ (["database", "db", "username", "wp-config"], Intent.database_info)
  , (["theme"], Intent.theme_info)
  , (["plugin"], Intent.plugin_info)
  , (["post type", "cpt"], Intent.custom_post_types) ]

/-- First-match-wins evaluation of an ordered rule table. -/
def firstMatch (query : String) : List (List String × Intent) → Intent
  | [] => Intent.general_info
  | (kws, intent) :: rest =>
      if kws.any (fun kw => containsSub kw query) then intent
      else firstMatch query rest

/-- Modelled from the spec's words (section 4.4): classify by the ordered
rule table, case-insensitive substring tests on the whole question. -/
def classifySpec (prompt : String) : Intent :=
  firstMatch (lcString prompt) specRules

/-! ## The ad-hoc natural-language-to-SQL translator (extension.ts)

The pattern `like\s+(['"]?)%?([^%'"]+)%?(['"]?)` (flag `i`) needs real
backtracking: `['"]?` and `%?` prefer consuming a character, `\s+` prefers
the longest whitespace run, and each alternative is retried in order until
the mandatory capture `[^%'"]+` can take at least one character.  The two
trailing optional pieces always succeed and do not constrain the capture,
so they are not modelled. -/

/-- Is this character excluded from the capture class `[^%'"]`? -/
def badChar (c : Char) : Bool :=
  c == '%' || c == '\'' || c == '"'

/-- The mandatory capture `[^%'"]+`: the maximal run of allowed characters,
failing when it is empty. -/
def tryCapture (s : List Char) : Option (List Char) :=
  if (s.takeWhile (fun c => !badChar c)).isEmpty then none
  else some (s.takeWhile (fun c => !badChar c))

/-- `%?` then the capture: prefer consuming a leading `%`, else leave it. -/
def pctTry : List Char → Option (List Char)
  | '%' :: rest =>
      match tryCapture rest with
      | some cap => some cap
      | none => tryCapture ('%' :: rest)
  | s => tryCapture s

/-- `['"]?` then `%?` then the capture: prefer consuming a leading quote. -/
def quoteTry : List Char → Option (List Char)
  | c :: rest =>
      if c == '\'' || c == '"' then
        match pctTry rest with
        | some cap => some cap
        | none => pctTry (c :: rest)
      else pctTry (c :: rest)
  | [] => pctTry []

/-- `\s+` then the rest of the pattern: `n` is the length of the whitespace
run after `like`; try consuming `k+1` whitespace characters for `k+1 = n`
down to `1` (greedy first, backtracking shorter). -/
def tryKs (s : List Char) : Nat → Option (List Char)
  | 0 => none
  | k + 1 =>
      match quoteTry (s.drop (k + 1)) with
      | some cap => some cap
      | none => tryKs s k

/-- The part of the pattern after the literal `like`. -/
def afterLike (s : List Char) : Option (List Char) :=
  tryKs s (s.takeWhile isJsSpace).length

/-- Does `like` (case-insensitive) start here? -/
def isLikeAt : List Char → Bool
  | a :: b :: c :: d :: _ =>
      a.toLower == 'l' && b.toLower == 'i' && c.toLower == 'k' && d.toLower == 'e'
  | _ => false

/-- Leftmost match of the whole pattern: at each position, try `like`
followed by the rest; on failure move one character right, as JS
`String.prototype.match` does. -/
def likeSearch : List Char → Option (List Char)
  | [] => none
  | c :: rest =>
      if isLikeAt (c :: rest) then
        match afterLike ((c :: rest).drop 4) with
        | some cap => some cap
        | none => likeSearch rest
      else likeSearch rest

/-- A parameterized SQL query as handed to WordPressManager.query. -/
structure SqlRequest where
  sql : String
  params : List String
deriving DecidableEq, Repr

/-- The template literal of executeNaturalLanguageQuery, including its
embedded newlines and indentation. -/
def optionsSql (tp : String) : String :=
  "SELECT option_id, option_name, option_value \n                FROM "
    ++ tp ++ "options \n                WHERE option_name LIKE ? \n                LIMIT 50"

def noPrefixMsg : String := "Unable to determine WordPress table prefix"

def unrecognizedMsg : String :=
  "Could not understand the query. Try \"find options like %pattern%\""

/-- executeNaturalLanguageQuery: `tp` is the manager's table prefix (JS
falsy check models the `!prefix` throw).  `Except.error` models a thrown
Error, `Except.ok` the parameterized query submitted to the database. -/
def executeNaturalLanguageQuery (tp query : String) : Except String SqlRequest :=
  if tp = "" then Except.error noPrefixMsg
  else
    let lowerQuery := lcString query
    if containsSub "option" lowerQuery && containsSub "like" lowerQuery then
      match likeSearch query.data with
      | some cap =>
          Except.ok { sql := optionsSql tp, params := ["%" ++ String.mk cap ++ "%"] }
      | none => Except.error unrecognizedMsg
    else Except.error unrecognizedMsg

/-- A wp-config fragment declaring the table prefix in both styles with
different values: the define form carries X, the assignment carries Y. -/
def bothPrefixForms : String := "define('table_prefix', 'X'); $table_prefix = 'Y';"

/-- A wp-config fragment declaring the table prefix only in the define
style (no `$table_prefix` assignment anywhere). -/
def defineOnlyPrefix : String := "define('table_prefix', 'zz_')"

/-- A concrete database whose cptui_post_types option row holds one
serialized token while the posts table holds a distinct custom type of its
own (which must not be merged into the result). -/
def cptDb : WordPressDatabase :=
  { optionRows := fun k => if k = "cptui_post_types" then ["a:1:\x7bi:0;s:4:\"book\";\x7d"] else []
    postTypes := ["movie", "post"] }

/-- A concrete database whose active_plugins option row carries two plugin
paths and a trailing separator. -/
def pluginsDb : WordPressDatabase :=
  { optionRows := fun k => if k = "active_plugins" then ["a/a.php;b/b.php;"] else []
    postTypes := [] }

/-! ## Helper lemmas -/

/-- Case-insensitive prefix stripping only depends on the pattern's
lower-casing. -/
theorem stripPrefixCI_congr (p1 p2 : List Char)
    (hp : p1.map Char.toLower = p2.map Char.toLower) :
    ∀ s, stripPrefixCI p1 s = stripPrefixCI p2 s := by
  induction p1 generalizing p2 with
  | nil =>
      cases p2 with
      | nil => intro s; rfl
      | cons b bs => simp at hp
  | cons a as ih =>
      cases p2 with
      | nil => simp at hp
      | cons b bs =>
          simp only [List.map_cons, List.cons.injEq] at hp
          intro s
          cases s with
          | nil => rfl
          | cons c cs => simp only [stripPrefixCI, hp.1, ih bs hp.2]

/-- The define matcher only depends on the key's lower-casing (the JS regex
carries the `i` flag over the whole pattern, interpolated key included). -/
theorem matchDefineAt_congr (k1 k2 : List Char)
    (hp : k1.map Char.toLower = k2.map Char.toLower) (s : List Char) :
    matchDefineAt k1 s = matchDefineAt k2 s := by
  simp only [matchDefineAt, stripPrefixCI_congr k1 k2 hp]

/-- The content-wide define search only depends on the key's lower-casing. -/
theorem findDefine_congr (k1 k2 : List Char)
    (hp : k1.map Char.toLower = k2.map Char.toLower) :
    ∀ s, findDefine k1 s = findDefine k2 s := by
  intro s
  induction s with
  | nil => rfl
  | cons c cs ih => simp only [findDefine, matchDefineAt_congr k1 k2 hp, ih]

theorem findConfig_found (hasCfg : List String → Bool) :
    ∀ (p : List String) (d : Nat), d < p.length → hasCfg (p.drop d) = true →
      (∀ i, i < d → hasCfg (p.drop i) = false) →
      findWordPressConfig hasCfg p = (some ("wp-config.php" :: p.drop d), d + 1) := by
  intro p
  induction p with
  | nil => intro d hd _ _; simp at hd
  | cons a rest ih =>
      intro d hd hc hmin
      cases d with
      | zero =>
          simp only [List.drop_zero] at hc ⊢
          simp [findWordPressConfig, hc]
      | succ d' =>
          have h0 : hasCfg (a :: rest) = false := by
            simpa using hmin 0 (Nat.succ_pos d')
          have hrec := ih d' (by simpa using hd) (by simpa using hc)
            (fun i hi => by simpa using hmin (i + 1) (Nat.succ_lt_succ hi))
          simp [findWordPressConfig, h0, hrec]

theorem findConfig_notfound (hasCfg : List String → Bool) :
    ∀ p : List String, (∀ i, i < p.length → hasCfg (p.drop i) = false) →
      (findWordPressConfig hasCfg p).1 = none := by
  intro p
  induction p with
  | nil => intro _; rfl
  | cons a rest ih =>
      intro h
      have h0 : hasCfg (a :: rest) = false := by simpa using h 0 (Nat.succ_pos _)
      have hrec := ih (fun i hi => by simpa using h (i + 1) (Nat.succ_lt_succ hi))
      simp [findWordPressConfig, h0, hrec]

/-! ## Claim theorems -/

/-- Claim C1, corrected.  The walk returns the marker file's full path
after exactly d+1 existence checks when the nearest marker sits at depth d
strictly below the filesystem root, and returns null when no directory
strictly below the root holds one — the source's loop guard
`currentPath !== rootPath` runs before the existence check, so the root
directory itself is never examined (regardless of `hasCfg []`). -/
theorem C1_locate (hasCfg : List String → Bool) (p : List String) :
    (∀ d, d < p.length → hasCfg (p.drop d) = true →
        (∀ i, i < d → hasCfg (p.drop i) = false) →
        findWordPressConfig hasCfg p = (some ("wp-config.php" :: p.drop d), d + 1))
  ∧ ((∀ i, i < p.length → hasCfg (p.drop i) = false) →
        (findWordPressConfig hasCfg p).1 = none) :=
  ⟨fun d hd hc hmin => findConfig_found hasCfg p d hd hc hmin,
   fun h => findConfig_notfound hasCfg p h⟩

/-- Witness for C1_locate: a marker one level above the start directory is
found with two existence checks; with no marker below the root the walk
reports not-found. -/
theorem C1_locate_witness :
    findWordPressConfig (fun l => l == ["a"]) ["b", "a"] = (some ["wp-config.php", "a"], 2)
  ∧ (findWordPressConfig (fun l => l == ["c"]) ["b", "a"]).1 = none := by
  constructor
  · have h := (C1_locate (fun l => l == ["a"]) ["b", "a"]).1 1 (by decide) (by decide)
      (fun i hi => by
        have : i = 0 := Nat.lt_one_iff.mp hi
        subst this; decide)
    simpa using h
  · exact (C1_locate (fun l => l == ["c"]) ["b", "a"]).2 (fun i hi => by
      match i, hi with
      | 0, _ => decide
      | 1, _ => decide)

/-- Counterexample to claim C1 as stated: the filesystem root `[]` lies on
the ancestor chain of the start path `["a"]` and contains the marker file,
yet locate returns null — the claim promises the file's path for a marker
at any depth on the ancestor chain. -/
theorem C1_locate_cex :
    (fun l : List String => l.isEmpty) (List.drop 1 ["a"]) = true
  ∧ (findWordPressConfig (fun l : List String => l.isEmpty) ["a"]).1 = none := by
  exact ⟨rfl, rfl⟩

/-- Claim C2 (the code violates the documented invariant): starting from a
configured manager, two consecutive successful connectToDatabase calls
leave both driver handles open — the first call's handle is overwritten in
`this.connection` but never `end()`ed, and a later disconnect closes only
the second handle.  The claim (at most one open handle; close-or-reuse)
is false of the code. -/
theorem C2_connection_leak :
    (connectToDatabase none true
        { config := some sampleConfig, connection := none, openHandles := [], nextHandle := 0 }).2
      = true
  ∧ (connectToDatabase none true (connectToDatabase none true
        { config := some sampleConfig, connection := none, openHandles := [], nextHandle := 0 }).1).2
      = true
  ∧ (connectToDatabase none true (connectToDatabase none true
        { config := some sampleConfig, connection := none, openHandles := [], nextHandle := 0 }).1).1.openHandles
      = [0, 1]
  ∧ (disconnect (connectToDatabase none true (connectToDatabase none true
        { config := some sampleConfig, connection := none, openHandles := [], nextHandle := 0 }).1).1).openHandles
      = [0] := by
  refine ⟨rfl, rfl, rfl, rfl⟩

/-- Claim C5, confirmed: the classifier equals the specification's ordered
first-match-wins rule table for every input (hence it is total, lands in
exactly one of the five intents, and database keywords take precedence
over theme keywords whenever both occur). -/
theorem C5_classifier (q : String) : classify q = classifySpec q := by
  simp only [classify, classifySpec, firstMatch, specRules, List.any_cons, List.any_nil,
    Bool.or_false, Bool.or_assoc]

/-- Claim C3, corrected.  Extraction does match
define(quote K quote, quote VALUE quote) with independently chosen quote
characters and insignificant whitespace, but the `i` flag makes matching
case-insensitive on the whole pattern — the key K included, not just the
`define` keyword: for the non-table-prefix keys the result is invariant
under re-casing the key, and content holding only define('db_name', 'foo')
parses to dbName "foo" rather than to the empty string. -/
theorem C3_define_extraction :
    (∀ content : String,
        extractConfigValue content "DB_NAME" = extractConfigValue content "db_name")
  ∧ extractConfigValue "define('DB_NAME', 'foo')" "DB_NAME" = "foo"
  ∧ extractConfigValue "define(\"DB_NAME\",\"foo\")" "DB_NAME" = "foo"
  ∧ extractConfigValue "define('db_name', 'foo')" "DB_NAME" = "foo" := by
  refine ⟨fun content => ?_, by decide, by decide, by decide⟩
  unfold extractConfigValue
  rw [findDefine_congr ("DB_NAME".data) ("db_name".data) (by decide) content.data]
  cases h : findDefine ("db_name".data) content.data with
  | some cap => rfl
  | none => rw [if_neg (by decide), if_neg (by decide)]

/-- Counterexample to claim C3 as stated: content containing only
define('db_name', 'foo') is claimed to yield an empty dbName, but the
parser returns "foo" for it (the regex's `i` flag covers the key). -/
theorem C3_define_cex :
    ¬ (parseWordPressConfig "/x/wp-config.php" "define('db_name', 'foo')" "/x").dbName = ""
  ∧ (parseWordPressConfig "/x/wp-config.php" "define('db_name', 'foo')" "/x").dbName = "foo" := by
  exact ⟨by decide, by decide⟩

/-- Claim C4, corrected.  The define-constant form is tried first for the
table prefix too: only when no define('table_prefix', ...) matches does the
$table_prefix assignment pattern apply, with default wp_ when both are
absent; consequently content carrying both forms parses to the define
form's value X, not the assignment's Y. -/
theorem C4_table_prefix_order :
    (∀ (content : String) (cap : List Char),
        findDefine ("table_prefix".data) content.data = some cap →
        extractConfigValue content "table_prefix" = String.mk cap)
  ∧ (∀ content : String,
        findDefine ("table_prefix".data) content.data = none →
        extractConfigValue content "table_prefix" =
          match findTablePrefix content.data with
          | some cap => String.mk cap
          | none => "wp_")
  ∧ extractConfigValue bothPrefixForms "table_prefix" = "X" := by
  refine ⟨fun content cap h => ?_, fun content h => ?_, by decide⟩
  · unfold extractConfigValue
    simp only [h]
  · unfold extractConfigValue
    simp only [h]
    rw [if_pos trivial]

/-- Witness for C4_table_prefix_order: on content carrying both forms the
define match is some ['X'] and extraction returns it. -/
theorem C4_table_prefix_order_witness :
    extractConfigValue bothPrefixForms "table_prefix" = String.mk ['X'] :=
  C4_table_prefix_order.1 bothPrefixForms ['X'] (by decide)

/-- Counterexample to claim C4 as stated: for content containing both
define('table_prefix','X') and $table_prefix = 'Y', the claim promises
tablePrefix Y, but the parser returns X. -/
theorem C4_table_prefix_cex :
    ¬ (parseWordPressConfig "/x/wp-config.php" bothPrefixForms "/x").tablePrefix = "Y"
  ∧ (parseWordPressConfig "/x/wp-config.php" bothPrefixForms "/x").tablePrefix = "X" := by
  exact ⟨by decide, by decide⟩

/-- Claim C7, corrected.  Parsing always succeeds structurally and
substitutes defaults — dbHost is "localhost" when no DB_HOST definition
matches, and tablePrefix is never empty — but a missing $table_prefix
assignment alone does not force the default wp_: a
define('table_prefix', ...) constant, tried first, can still set the
prefix, so the default applies only when both patterns are absent. -/
theorem C7_parse_defaults (configPath content dir : String) :
    (findDefine ("DB_HOST".data) content.data = none →
        (parseWordPressConfig configPath content dir).dbHost = "localhost")
  ∧ (findDefine ("table_prefix".data) content.data = none →
        findTablePrefix content.data = none →
        (parseWordPressConfig configPath content dir).tablePrefix = "wp_")
  ∧ ¬ (parseWordPressConfig configPath content dir).tablePrefix = "" := by
  refine ⟨fun h => ?_, fun h1 h2 => ?_, ?_⟩
  · simp only [parseWordPressConfig, extractConfigValue, h]
    rw [if_neg (by decide)]
    rfl
  · simp only [parseWordPressConfig, extractConfigValue, h1, h2]
    decide
  · simp only [parseWordPressConfig]
    unfold orDefault
    split
    · decide
    · assumption

/-- Witness for C7_parse_defaults: empty content matches neither pattern,
so dbHost falls back to "localhost" and tablePrefix to the nonempty "wp_". -/
theorem C7_parse_defaults_witness :
    (parseWordPressConfig "/x/wp-config.php" "" "/x").dbHost = "localhost"
  ∧ (parseWordPressConfig "/x/wp-config.php" "" "/x").tablePrefix = "wp_"
  ∧ ¬ (parseWordPressConfig "/x/wp-config.php" "" "/x").tablePrefix = "" :=
  ⟨(C7_parse_defaults "/x/wp-config.php" "" "/x").1 rfl,
   (C7_parse_defaults "/x/wp-config.php" "" "/x").2.1 rfl rfl,
   (C7_parse_defaults "/x/wp-config.php" "" "/x").2.2⟩

/-- Counterexample to claim C7 as stated: content with no $table_prefix
assignment is claimed to yield tablePrefix wp_, but a define-form prefix
declaration yields zz_ instead. -/
theorem C7_parse_defaults_cex :
    findTablePrefix defineOnlyPrefix.data = none
  ∧ ¬ (parseWordPressConfig "/x/wp-config.php" defineOnlyPrefix "/x").tablePrefix = "wp_"
  ∧ (parseWordPressConfig "/x/wp-config.php" defineOnlyPrefix "/x").tablePrefix = "zz_" := by
  exact ⟨by decide, by decide, by decide⟩

/-! ## Helper lemmas for the like-pattern capture -/

theorem tryCapture_sound (s cap : List Char) (h : tryCapture s = some cap) :
    ¬ cap = [] ∧ ∀ c ∈ cap, badChar c = false := by
  unfold tryCapture at h
  split at h
  · exact absurd h (by simp)
  · rename_i hne
    injection h with h'
    subst h'
    refine ⟨by simpa [List.isEmpty_iff] using hne, fun c hc => ?_⟩
    simpa using List.mem_takeWhile_imp hc

theorem pctTry_sound (s cap : List Char) (h : pctTry s = some cap) :
    ¬ cap = [] ∧ ∀ c ∈ cap, badChar c = false := by
  unfold pctTry at h
  split at h
  · split at h
    · rename_i heq
      cases h
      exact tryCapture_sound _ _ heq
    · exact tryCapture_sound _ _ h
  · exact tryCapture_sound _ _ h

theorem quoteTry_sound (s cap : List Char) (h : quoteTry s = some cap) :
    ¬ cap = [] ∧ ∀ c ∈ cap, badChar c = false := by
  unfold quoteTry at h
  split at h
  · split at h
    · split at h
      · rename_i heq
        cases h
        exact pctTry_sound _ _ heq
      · exact pctTry_sound _ _ h
    · exact pctTry_sound _ _ h
  · exact pctTry_sound _ _ h

theorem tryKs_sound (s : List Char) (k : Nat) :
    ∀ cap, tryKs s k = some cap → ¬ cap = [] ∧ ∀ c ∈ cap, badChar c = false := by
  induction k with
  | zero => intro cap h; exact absurd h (by simp [tryKs])
  | succ k ih =>
      intro cap h
      unfold tryKs at h
      split at h
      · rename_i heq
        cases h
        exact quoteTry_sound _ _ heq
      · exact ih _ h

theorem likeSearch_sound (s : List Char) :
    ∀ cap, likeSearch s = some cap → ¬ cap = [] ∧ ∀ c ∈ cap, badChar c = false := by
  induction s with
  | nil => intro cap h; exact absurd h (by simp [likeSearch])
  | cons c rest ih =>
      intro cap h
      unfold likeSearch at h
      split at h
      · split at h
        · rename_i heq
          cases h
          unfold afterLike at heq
          exact tryKs_sound _ _ _ heq
        · exact ih _ h
      · exact ih _ h

/-- The JS emptiness test `length > 0` agrees with non-emptiness. -/
theorem length_pos_isEmpty (l : List Char) : decide (0 < l.length) = !l.isEmpty := by
  cases l <;> simp

/-! ## Remaining claim theorems -/

/-- Claim C6, confirmed: with a known table prefix, the translator throws
the fixed could-not-understand error exactly when the lower-cased input
does not contain both "option" and "like", or the extraction pattern
yields no (equivalently, an empty) captured token; otherwise it issues the
one fixed options query with the captured token wrapped in percent signs.
Inputs "find options like %mss%" and "find options like mss" both bind
"%mss%", and "show me themes" is rejected. -/
theorem C6_translator (tp : String) (hp : ¬ tp = "") :
    (∀ q : String,
        executeNaturalLanguageQuery tp q = Except.error unrecognizedMsg ↔
          (¬ (containsSub "option" (lcString q) && containsSub "like" (lcString q)) = true
            ∨ likeSearch q.data = none))
  ∧ (∀ (q : String) (cap : List Char),
        (containsSub "option" (lcString q) && containsSub "like" (lcString q)) = true →
        likeSearch q.data = some cap →
        executeNaturalLanguageQuery tp q =
          Except.ok { sql := optionsSql tp, params := ["%" ++ String.mk cap ++ "%"] })
  ∧ executeNaturalLanguageQuery tp "find options like %mss%"
      = Except.ok { sql := optionsSql tp, params := ["%mss%"] }
  ∧ executeNaturalLanguageQuery tp "find options like mss"
      = Except.ok { sql := optionsSql tp, params := ["%mss%"] }
  ∧ executeNaturalLanguageQuery tp "show me themes" = Except.error unrecognizedMsg := by
  have hok : ∀ (q : String) (cap : List Char),
      (containsSub "option" (lcString q) && containsSub "like" (lcString q)) = true →
      likeSearch q.data = some cap →
      executeNaturalLanguageQuery tp q =
        Except.ok { sql := optionsSql tp, params := ["%" ++ String.mk cap ++ "%"] } := by
    intro q cap hc hl
    simp only [executeNaturalLanguageQuery]
    rw [if_neg hp, if_pos hc, hl]
  have herr : ∀ q : String,
      executeNaturalLanguageQuery tp q = Except.error unrecognizedMsg ↔
        (¬ (containsSub "option" (lcString q) && containsSub "like" (lcString q)) = true
          ∨ likeSearch q.data = none) := by
    intro q
    simp only [executeNaturalLanguageQuery]
    rw [if_neg hp]
    by_cases hc : (containsSub "option" (lcString q) && containsSub "like" (lcString q)) = true
    · rw [if_pos hc]
      cases hl : likeSearch q.data with
      | none => simp [hc, hl]
      | some cap => simp [hc, hl]
    · rw [if_neg hc]
      simp [hc]
  have h1 := hok "find options like %mss%" ['m', 's', 's'] (by decide) (by decide)
  have h2 := hok "find options like mss" ['m', 's', 's'] (by decide) (by decide)
  have e1 : ("%" ++ String.mk ['m', 's', 's'] ++ "%") = "%mss%" := by decide
  rw [e1] at h1 h2
  exact ⟨herr, hok, h1, h2, (herr "show me themes").mpr (Or.inl (by decide))⟩

/-- Witness for C6_translator at the concrete prefix wp_. -/
theorem C6_translator_witness :
    executeNaturalLanguageQuery "wp_" "find options like %mss%"
      = Except.ok { sql := optionsSql "wp_", params := ["%mss%"] }
  ∧ executeNaturalLanguageQuery "wp_" "show me themes" = Except.error unrecognizedMsg :=
  ⟨(C6_translator "wp_" (by decide)).2.2.1, (C6_translator "wp_" (by decide)).2.2.2.2⟩

/-- Claim C8, confirmed: getCustomPostTypes prefers the cptui_post_types
option path over the posts-table fallback in strict order and never merges
them — when the option row exists and its value yields at least one
serialized token, exactly those tokens are returned; only when the row is
absent or yields no token is the posts table consulted for distinct
post types outside the five built-ins, capped at 20. -/
theorem C8_cpt_order (db : WordPressDatabase) :
    (∀ v rest, db.optionRows "cptui_post_types" = v :: rest →
        (¬ cptScan v.data = [] →
            getCustomPostTypes db = (cptScan v.data).map (fun t => String.mk t))
      ∧ (cptScan v.data = [] →
            getCustomPostTypes db =
              ((db.postTypes.filter (fun t => !builtinPostTypes.contains t)).eraseDups).take 20))
  ∧ (db.optionRows "cptui_post_types" = [] →
        getCustomPostTypes db =
          ((db.postTypes.filter (fun t => !builtinPostTypes.contains t)).eraseDups).take 20) := by
  refine ⟨fun v rest h => ⟨fun hne => ?_, fun he => ?_⟩, fun h => ?_⟩
  · have hne' : (cptScan v.data).isEmpty = false := by
      simpa [List.isEmpty_iff] using hne
    simp [getCustomPostTypes, h, hne']
  · simp [getCustomPostTypes, h, he, fallbackPostTypes]
  · simp [getCustomPostTypes, h, fallbackPostTypes]

/-- Witness for C8_cpt_order: the serialized option token "book" wins even
though the posts table holds the distinct custom type "movie". -/
theorem C8_cpt_order_witness :
    getCustomPostTypes cptDb
      = (cptScan ("a:1:\x7bi:0;s:4:\"book\";\x7d").data).map (fun t => String.mk t) :=
  ((C8_cpt_order cptDb).1 "a:1:\x7bi:0;s:4:\"book\";\x7d" [] (by decide)).1 (by decide)

/-- Claim C9, confirmed: for every stored active_plugins value the result
is the split of the raw value on the semicolon separator with every
segment whose trim is empty discarded, in original order; on
"a/a.php;b/b.php;" exactly the two plugin paths survive. -/
theorem C9_active_plugins (db : WordPressDatabase) :
    (∀ v rest, db.optionRows "active_plugins" = v :: rest →
        getActivePlugins db
          = ((splitOnChar ';' v.data).map (fun l => String.mk l)).filter
              (fun seg => !(trimChars seg.data).isEmpty))
  ∧ parseActivePlugins "a/a.php;b/b.php;" = ["a/a.php", "b/b.php"] := by
  refine ⟨fun v rest h => ?_, by decide⟩
  simp only [getActivePlugins, h, parseActivePlugins]
  exact List.filter_congr (fun seg _ => length_pos_isEmpty (trimChars seg.data))

/-- Witness for C9_active_plugins at a concrete stored value. -/
theorem C9_active_plugins_witness :
    getActivePlugins pluginsDb
      = ((splitOnChar ';' ("a/a.php;b/b.php;").data).map (fun l => String.mk l)).filter
          (fun seg => !(trimChars seg.data).isEmpty) :=
  (C9_active_plugins pluginsDb).1 "a/a.php;b/b.php;" [] (by decide)

/-- Claim C10, confirmed: whenever the translator issues a query, its
single bound parameter is exactly a percent sign, a non-empty token free
of percent signs and of both quote characters, and a percent sign — the
capture class strips user-supplied wrapping, so the wildcard is never
doubled and no quote reaches the LIKE pattern. -/
theorem C10_like_param (tp q : String) (r : SqlRequest)
    (h : executeNaturalLanguageQuery tp q = Except.ok r) :
    ∃ t : String, r.params = ["%" ++ t ++ "%"] ∧ ¬ t = ""
      ∧ ∀ c ∈ t.data, ¬ c = '%' ∧ ¬ c = '\'' ∧ ¬ c = '"' := by
  simp only [executeNaturalLanguageQuery] at h
  split at h
  · exact absurd h (by simp)
  · split at h
    · split at h
      · rename_i cap heq
        injection h with h'
        subst h'
        have hs := likeSearch_sound _ _ heq
        refine ⟨String.mk cap, rfl, fun hc => hs.1 (congrArg String.data hc), fun c hc => ?_⟩
        have hb := hs.2 c hc
        simpa [badChar, and_assoc] using hb
      · exact absurd h (by simp)
    · exact absurd h (by simp)

/-- Witness for C10_like_param: the query produced for
"find options like mss" carries the single clean parameter "%mss%". -/
theorem C10_like_param_witness :
    ∃ t : String,
      (SqlRequest.mk (optionsSql "wp_") ["%mss%"]).params = ["%" ++ t ++ "%"] ∧ ¬ t = ""
      ∧ ∀ c ∈ t.data, ¬ c = '%' ∧ ¬ c = '\'' ∧ ¬ c = '"' :=
  C10_like_param "wp_" "find options like mss"
    (SqlRequest.mk (optionsSql "wp_") ["%mss%"]) (by rfl)

end McpWordpress
